import Mathlib

/-!
Verification of the rr record-and-replay engine specification against a
shallow embedding of the relevant source code.

The embedding below translates, data structure by data structure and
function by function, the code under `src/`:

* `src/Registers.cc` / `src/Registers.h` / `src/kernel_abi.h`:
  the register-file comparison machinery (`RegisterValue` tables,
  `compare_registers_core`, `compare_registers_arch`).
* `src/preload/preload.c`: the syscall-buffer commit protocol
  (`start_commit_buffered_syscall`, `commit_raw_syscall`).
* `src/TraceStream.cc` / `src/TraceStream.h`: trace frame
  serialization (`TraceWriter::write_frame`, `TraceReader::read_frame`,
  `TraceReader::rewind`, the version check in `TraceReader::TraceReader`).
* `src/AutoRemoteSyscalls.cc`: `is_usable_area` and
  `AutoRemoteSyscalls::maybe_fix_stack_pointer`.
* `src/AddressSpace.h`: the robust `Maps::iterator`.
* `src/ReplayCommand.cc`: `ReplayCommand::run` exit codes.

Machine integers are modelled as `Nat` bit patterns with explicit widths.
-/

namespace RR

/-! ## Register model (src/kernel_abi.h, src/Registers.h, src/Registers.cc) -/

/-- Eflags bit constants from src/Registers.h lines 28-33. -/
def X86_RESERVED_FLAG : Nat := 1 <<< 1

def X86_TF_FLAG : Nat := 1 <<< 8

def X86_IF_FLAG : Nat := 1 <<< 9

def X86_RF_FLAG : Nat := 1 <<< 16

def X86_ID_FLAG : Nat := 1 <<< 21

/-- `RegisterValue::mask_for_nbytes` (src/Registers.cc lines 58-63):
`((nbytes == 8) ? uint64_t(0) : (uint64_t(1) << nbytes * 8)) - 1`, where the
`uint64_t(0) - 1` wrap-around yields `2^64 - 1`. -/
def mask_for_nbytes (nbytes : Nat) : Nat :=
  (if nbytes == 8 then 2 ^ 64 else 1 <<< (nbytes * 8)) - 1

/-- `deterministic_eflags_mask` (src/Registers.cc lines 113-139):
`~uint32_t(X86_RESERVED_FLAG | X86_IF_FLAG | X86_RF_FLAG | X86_ID_FLAG)`,
the 32-bit complement of the non-deterministic eflags bits. -/
def deterministic_eflags_mask : Nat :=
  (2 ^ 32 - 1) ^^^ (X86_RESERVED_FLAG ||| X86_IF_FLAG ||| X86_RF_FLAG ||| X86_ID_FLAG)

/-- `rr::X86Arch::user_regs_struct` (src/kernel_abi.h lines 1208-1226).
Each field is the 32-bit bit pattern of the corresponding `int32_t` field. -/
structure X86Regs where
  ebx : Nat
  ecx : Nat
  edx : Nat
  esi : Nat
  edi : Nat
  ebp : Nat
  eax : Nat
  xds : Nat
  xes : Nat
  xfs : Nat
  xgs : Nat
  orig_eax : Nat
  eip : Nat
  xcs : Nat
  eflags : Nat
  esp : Nat
  xss : Nat
  deriving Repr, DecidableEq

/-- All fields of an `X86Regs` are 32-bit patterns. -/
def X86Regs.wf (r : X86Regs) : Prop :=
  r.ebx < 2 ^ 32 ∧ r.ecx < 2 ^ 32 ∧ r.edx < 2 ^ 32 ∧ r.esi < 2 ^ 32 ∧
  r.edi < 2 ^ 32 ∧ r.ebp < 2 ^ 32 ∧ r.eax < 2 ^ 32 ∧ r.xds < 2 ^ 32 ∧
  r.xes < 2 ^ 32 ∧ r.xfs < 2 ^ 32 ∧ r.xgs < 2 ^ 32 ∧ r.orig_eax < 2 ^ 32 ∧
  r.eip < 2 ^ 32 ∧ r.xcs < 2 ^ 32 ∧ r.eflags < 2 ^ 32 ∧ r.esp < 2 ^ 32 ∧
  r.xss < 2 ^ 32

instance (r : X86Regs) : Decidable r.wf := by unfold X86Regs.wf; infer_instance

/-- `rr::X64Arch::user_regs_struct` (src/kernel_abi.h lines 1345-1384).
64-bit fields are 64-bit patterns; the segment registers, eflags and their
`_upper` paddings are separate 32-bit fields exactly as in the struct. -/
structure X64Regs where
  r15 : Nat
  r14 : Nat
  r13 : Nat
  r12 : Nat
  rbp : Nat
  rbx : Nat
  r11 : Nat
  r10 : Nat
  r9 : Nat
  r8 : Nat
  rax : Nat
  rcx : Nat
  rdx : Nat
  rsi : Nat
  rdi : Nat
  orig_rax : Nat
  rip : Nat
  cs : Nat
  cs_upper : Nat
  eflags : Nat
  eflags_upper : Nat
  rsp : Nat
  ss : Nat
  ss_upper : Nat
  fs_base : Nat
  gs_base : Nat
  ds : Nat
  ds_upper : Nat
  es : Nat
  es_upper : Nat
  fs : Nat
  fs_upper : Nat
  gs : Nat
  gs_upper : Nat
  deriving Repr, DecidableEq

/-- 64-bit fields below 2^64, 32-bit fields below 2^32. -/
def X64Regs.wf (r : X64Regs) : Prop :=
  r.r15 < 2 ^ 64 ∧ r.r14 < 2 ^ 64 ∧ r.r13 < 2 ^ 64 ∧ r.r12 < 2 ^ 64 ∧
  r.rbp < 2 ^ 64 ∧ r.rbx < 2 ^ 64 ∧ r.r11 < 2 ^ 64 ∧ r.r10 < 2 ^ 64 ∧
  r.r9 < 2 ^ 64 ∧ r.r8 < 2 ^ 64 ∧ r.rax < 2 ^ 64 ∧ r.rcx < 2 ^ 64 ∧
  r.rdx < 2 ^ 64 ∧ r.rsi < 2 ^ 64 ∧ r.rdi < 2 ^ 64 ∧ r.orig_rax < 2 ^ 64 ∧
  r.rip < 2 ^ 64 ∧ r.cs < 2 ^ 32 ∧ r.cs_upper < 2 ^ 32 ∧ r.eflags < 2 ^ 32 ∧
  r.eflags_upper < 2 ^ 32 ∧ r.rsp < 2 ^ 64 ∧ r.ss < 2 ^ 32 ∧
  r.ss_upper < 2 ^ 32 ∧ r.fs_base < 2 ^ 64 ∧ r.gs_base < 2 ^ 64 ∧
  r.ds < 2 ^ 32 ∧ r.ds_upper < 2 ^ 32 ∧ r.es < 2 ^ 32 ∧ r.es_upper < 2 ^ 32 ∧
  r.fs < 2 ^ 32 ∧ r.fs_upper < 2 ^ 32 ∧ r.gs < 2 ^ 32 ∧ r.gs_upper < 2 ^ 32

instance (r : X64Regs) : Decidable r.wf := by unfold X64Regs.wf; infer_instance

/-- Names of registers that `compare_registers_arch` may report a mismatch
for, covering both architectures' tables plus the `_upper` fields the x86-64
specialization compares via `X64_REGCMP`. -/
inductive RegName where
  | eax | ecx | edx | ebx | esp | ebp | esi | edi | eip | eflags
  | xcs | xss | xds | xes | xfs | xgs | orig_eax
  | rax | rcx | rdx | rbx | rsp | rbp | rsi | rdi
  | r8 | r9 | r10 | r11 | r12 | r13 | r14 | r15 | rip
  | cs | ss | ds | es | fs | gs | orig_rax
  | cs_upper | ds_upper | es_upper | fs_upper | gs_upper | ss_upper
  | eflags_upper
  deriving Repr, DecidableEq

/-- One initialized entry of a `RegisterInfo<Arch>::registers` table:
register name, the value read out of a register file (the `memcpy` into a
`uint64_t` in `compare_registers_core`), and its `comparison_mask`. -/
structure RegTableEntry (Regs : Type) where
  name : RegName
  value : Regs → Nat
  comparison_mask : Nat

/-- `RegisterInfo<rr::X86Arch>::registers` (src/Registers.cc lines 141-150):
plain registers get `mask_for_nbytes(4)`; `eflags` gets
`deterministic_eflags_mask`; `xcs`, `xss`, `xds`, `xes` and `orig_eax` get
mask `0`; `xfs` and `xgs` get the default 4-byte mask. -/
def x86_register_table : List (RegTableEntry X86Regs) :=
  [⟨.eax, X86Regs.eax, mask_for_nbytes 4⟩,
   ⟨.ecx, X86Regs.ecx, mask_for_nbytes 4⟩,
   ⟨.edx, X86Regs.edx, mask_for_nbytes 4⟩,
   ⟨.ebx, X86Regs.ebx, mask_for_nbytes 4⟩,
   ⟨.esp, X86Regs.esp, mask_for_nbytes 4⟩,
   ⟨.ebp, X86Regs.ebp, mask_for_nbytes 4⟩,
   ⟨.esi, X86Regs.esi, mask_for_nbytes 4⟩,
   ⟨.edi, X86Regs.edi, mask_for_nbytes 4⟩,
   ⟨.eip, X86Regs.eip, mask_for_nbytes 4⟩,
   ⟨.eflags, X86Regs.eflags, deterministic_eflags_mask⟩,
   ⟨.xcs, X86Regs.xcs, 0⟩,
   ⟨.xss, X86Regs.xss, 0⟩,
   ⟨.xds, X86Regs.xds, 0⟩,
   ⟨.xes, X86Regs.xes, 0⟩,
   ⟨.xfs, X86Regs.xfs, mask_for_nbytes 4⟩,
   ⟨.xgs, X86Regs.xgs, mask_for_nbytes 4⟩,
   ⟨.orig_eax, X86Regs.orig_eax, 0⟩]

/-- `RegisterInfo<rr::X64Arch>::registers` (src/Registers.cc lines 154-167):
64-bit registers get `mask_for_nbytes(8)`; `rsp` gets mask `0`; `eflags`
gets `deterministic_eflags_mask`; `cs`, `ss`, `ds`, `es` and `orig_rax` get
mask `0`; `fs` and `gs` get the default 4-byte mask. -/
def x64_register_table : List (RegTableEntry X64Regs) :=
  [⟨.rax, X64Regs.rax, mask_for_nbytes 8⟩,
   ⟨.rcx, X64Regs.rcx, mask_for_nbytes 8⟩,
   ⟨.rdx, X64Regs.rdx, mask_for_nbytes 8⟩,
   ⟨.rbx, X64Regs.rbx, mask_for_nbytes 8⟩,
   ⟨.rsp, X64Regs.rsp, 0⟩,
   ⟨.rbp, X64Regs.rbp, mask_for_nbytes 8⟩,
   ⟨.rsi, X64Regs.rsi, mask_for_nbytes 8⟩,
   ⟨.rdi, X64Regs.rdi, mask_for_nbytes 8⟩,
   ⟨.r8, X64Regs.r8, mask_for_nbytes 8⟩,
   ⟨.r9, X64Regs.r9, mask_for_nbytes 8⟩,
   ⟨.r10, X64Regs.r10, mask_for_nbytes 8⟩,
   ⟨.r11, X64Regs.r11, mask_for_nbytes 8⟩,
   ⟨.r12, X64Regs.r12, mask_for_nbytes 8⟩,
   ⟨.r13, X64Regs.r13, mask_for_nbytes 8⟩,
   ⟨.r14, X64Regs.r14, mask_for_nbytes 8⟩,
   ⟨.r15, X64Regs.r15, mask_for_nbytes 8⟩,
   ⟨.rip, X64Regs.rip, mask_for_nbytes 8⟩,
   ⟨.eflags, X64Regs.eflags, deterministic_eflags_mask⟩,
   ⟨.cs, X64Regs.cs, 0⟩,
   ⟨.ss, X64Regs.ss, 0⟩,
   ⟨.ds, X64Regs.ds, 0⟩,
   ⟨.es, X64Regs.es, 0⟩,
   ⟨.fs, X64Regs.fs, mask_for_nbytes 4⟩,
   ⟨.gs, X64Regs.gs, mask_for_nbytes 4⟩,
   ⟨.orig_rax, X64Regs.orig_rax, 0⟩]

/-- `Registers::compare_registers_core` (src/Registers.cc lines 312-341),
reported as the list of register names for which
`(val1 ^ val2) & comparison_mask` is non-zero; entries with
`comparison_mask == 0` are disregarded (the `nbytes == 0` skip never fires
for initialized table entries).  The overall `match` result is `true` iff
this list is empty. -/
def compare_registers_core {Regs : Type} (table : List (RegTableEntry Regs))
    (reg1 reg2 : Regs) : List RegName :=
  table.filterMap fun rv =>
    if rv.comparison_mask == 0 then none
    else if (rv.value reg1 ^^^ rv.value reg2) &&& rv.comparison_mask != 0 then
      some rv.name
    else none

/-- Signed reading of a 32-bit pattern (the `int32_t` view used by
`reg1.u.x86regs.orig_eax >= 0`). -/
def toSigned32 (x : Nat) : Int :=
  if x < 2 ^ 31 then (x : Int) else (x : Int) - 2 ^ 32

/-- Signed reading of a 64-bit pattern (the `(intptr_t)` cast used by
`(intptr_t)reg1.u.x64regs.orig_rax >= 0`). -/
def toSigned64 (x : Nat) : Int :=
  if x < 2 ^ 63 then (x : Int) else (x : Int) - 2 ^ 64

/-- `Registers::compare_registers_arch<rr::X86Arch>` (src/Registers.cc lines
367-382): the core comparison, plus `X86_REGCMP(orig_eax)` guarded by
`reg1.u.x86regs.orig_eax >= 0 || reg2.u.x86regs.orig_eax >= 0`.  The result
is the list of registers reported as mismatching. -/
def compare_registers_arch_x86 (reg1 reg2 : X86Regs) : List RegName :=
  compare_registers_core x86_register_table reg1 reg2 ++
    (if (0 ≤ toSigned32 reg1.orig_eax ∨ 0 ≤ toSigned32 reg2.orig_eax) ∧
        reg1.orig_eax ≠ reg2.orig_eax then
      [RegName.orig_eax]
    else [])

/-- `Registers::compare_registers_arch<rr::X64Arch>` (src/Registers.cc lines
384-406): the core comparison, plus the guarded `X64_REGCMP(orig_rax)` and
the unconditional exact comparisons of the `_upper` fields.  The result is
the list of registers reported as mismatching. -/
def compare_registers_arch_x64 (reg1 reg2 : X64Regs) : List RegName :=
  compare_registers_core x64_register_table reg1 reg2 ++
    (if (0 ≤ toSigned64 reg1.orig_rax ∨ 0 ≤ toSigned64 reg2.orig_rax) ∧
        reg1.orig_rax ≠ reg2.orig_rax then
      [RegName.orig_rax]
    else []) ++
    (if reg1.cs_upper ≠ reg2.cs_upper then [RegName.cs_upper] else []) ++
    (if reg1.ds_upper ≠ reg2.ds_upper then [RegName.ds_upper] else []) ++
    (if reg1.es_upper ≠ reg2.es_upper then [RegName.es_upper] else []) ++
    (if reg1.fs_upper ≠ reg2.fs_upper then [RegName.fs_upper] else []) ++
    (if reg1.gs_upper ≠ reg2.gs_upper then [RegName.gs_upper] else []) ++
    (if reg1.ss_upper ≠ reg2.ss_upper then [RegName.ss_upper] else []) ++
    (if reg1.eflags_upper ≠ reg2.eflags_upper then [RegName.eflags_upper] else [])

/-- `Registers::compare_register_files_internal` returns `match`, i.e. no
register was reported as mismatching (x86 case). -/
def register_files_match_x86 (reg1 reg2 : X86Regs) : Bool :=
  compare_registers_arch_x86 reg1 reg2 == []

/-- `Registers::compare_register_files_internal` returns `match`, i.e. no
register was reported as mismatching (x86-64 case). -/
def register_files_match_x64 (reg1 reg2 : X64Regs) : Bool :=
  compare_registers_arch_x64 reg1 reg2 == []

end RR

namespace RR

/-! ## Helper lemmas about the comparison machinery -/

/-- Membership in the core comparison result, unfolded. -/
theorem mem_compare_registers_core {Regs : Type}
    (table : List (RegTableEntry Regs)) (r1 r2 : Regs) (n : RegName) :
    n ∈ compare_registers_core table r1 r2 ↔
      ∃ rv ∈ table, rv.comparison_mask ≠ 0 ∧
        (rv.value r1 ^^^ rv.value r2) &&& rv.comparison_mask ≠ 0 ∧
        rv.name = n := by
  unfold compare_registers_core
  rw [List.mem_filterMap]
  constructor
  · rintro ⟨rv, hrv, heq⟩
    refine ⟨rv, hrv, ?_⟩
    by_cases h1 : rv.comparison_mask == 0
    · simp [h1] at heq
    · by_cases h2 : (rv.value r1 ^^^ rv.value r2) &&& rv.comparison_mask != 0
      · simp [h1, h2] at heq
        simp only [bne_iff_ne, ne_eq] at h1 h2
        simp only [beq_iff_eq] at h1
        exact ⟨h1, by simpa using h2, heq⟩
      · simp [h1, h2] at heq
  · rintro ⟨rv, hrv, h1, h2, h3⟩
    refine ⟨rv, hrv, ?_⟩
    simp [h1, h2, h3]

/-- For 32-bit patterns, masking with `mask_for_nbytes 4` compares exactly. -/
theorem masked_xor_ne_zero_iff_32 {a b : Nat} (ha : a < 2 ^ 32) (hb : b < 2 ^ 32) :
    (a ^^^ b) &&& mask_for_nbytes 4 ≠ 0 ↔ a ≠ b := by
  have hmask : mask_for_nbytes 4 = 2 ^ 32 - 1 := by decide
  rw [hmask, Nat.and_pow_two_sub_one_eq_mod,
    Nat.mod_eq_of_lt (Nat.xor_lt_two_pow ha hb)]
  simp [Nat.xor_eq_zero]

/-- For 64-bit patterns, masking with `mask_for_nbytes 8` compares exactly. -/
theorem masked_xor_ne_zero_iff_64 {a b : Nat} (ha : a < 2 ^ 64) (hb : b < 2 ^ 64) :
    (a ^^^ b) &&& mask_for_nbytes 8 ≠ 0 ↔ a ≠ b := by
  have hmask : mask_for_nbytes 8 = 2 ^ 64 - 1 := by decide
  rw [hmask, Nat.and_pow_two_sub_one_eq_mod,
    Nat.mod_eq_of_lt (Nat.xor_lt_two_pow ha hb)]
  simp [Nat.xor_eq_zero]

/-- `orig_eax` is never reported by the core comparison: its table entry has
comparison mask 0 and no other entry is named `orig_eax`. -/
theorem orig_eax_not_mem_core (r1 r2 : X86Regs) :
    RegName.orig_eax ∉ compare_registers_core x86_register_table r1 r2 := by
  rw [mem_compare_registers_core]
  rintro ⟨rv, hrv, h1, _, h3⟩
  simp only [x86_register_table, List.mem_cons, List.not_mem_nil, or_false] at hrv
  rcases hrv with h | h | h | h | h | h | h | h | h | h | h | h | h | h | h | h | h <;>
    subst h <;> simp_all

/-- `orig_rax` is never reported by the core comparison: its table entry has
comparison mask 0 and no other entry is named `orig_rax`. -/
theorem orig_rax_not_mem_core (r1 r2 : X64Regs) :
    RegName.orig_rax ∉ compare_registers_core x64_register_table r1 r2 := by
  rw [mem_compare_registers_core]
  rintro ⟨rv, hrv, h1, _, h3⟩
  simp only [x64_register_table, List.mem_cons, List.not_mem_nil, or_false] at hrv
  rcases hrv with h | h | h | h | h | h | h | h | h | h | h | h | h | h | h | h | h |
    h | h | h | h | h | h | h | h <;> subst h <;> simp_all

end RR

namespace RR

/-- An all-zero x86 register file, used for concrete evaluations. -/
def zeroX86Regs : X86Regs := ⟨0, 0, 0, 0, 0, 0, 0, 0, 0, 0, 0, 0, 0, 0, 0, 0, 0⟩

/-- An all-zero x86-64 register file, used for concrete evaluations. -/
def zeroX64Regs : X64Regs :=
  ⟨0, 0, 0, 0, 0, 0, 0, 0, 0, 0, 0, 0, 0, 0, 0, 0, 0,
   0, 0, 0, 0, 0, 0, 0, 0, 0, 0, 0, 0, 0, 0, 0, 0, 0⟩

/-- C1 counterexample: a register file whose `orig_eax` is the 32-bit
pattern of `-1`. -/
def c1Reg2 : X86Regs := { zeroX86Regs with orig_eax := 2 ^ 32 - 1 }

/-- C1: the claim states a mismatch is reported on `orig_eax` only if BOTH
values are non-negative.  At `orig_eax = 0` versus `orig_eax = -1` the code
compares (because one of the two values is non-negative) and reports a
mismatch even though the second value is negative. -/
theorem c1_orig_ax_counterexample :
    RegName.orig_eax ∈ compare_registers_arch_x86 zeroX86Regs c1Reg2 ∧
      ¬(0 ≤ toSigned32 zeroX86Regs.orig_eax ∧ 0 ≤ toSigned32 c1Reg2.orig_eax) := by
  constructor
  · decide
  · decide

/-- C1 (amended): `compare_registers_arch` reports a mismatch on the
`orig_*ax` register if and only if AT LEAST ONE of the two compared values
is non-negative (read as a signed machine word) and the two bit patterns
differ; the comparison is skipped only when both values are negative.  This
holds on both architectures. -/
theorem c1_orig_ax_comparison :
    (∀ reg1 reg2 : X86Regs,
        RegName.orig_eax ∈ compare_registers_arch_x86 reg1 reg2 ↔
          (0 ≤ toSigned32 reg1.orig_eax ∨ 0 ≤ toSigned32 reg2.orig_eax) ∧
            reg1.orig_eax ≠ reg2.orig_eax) ∧
    (∀ reg1 reg2 : X64Regs,
        RegName.orig_rax ∈ compare_registers_arch_x64 reg1 reg2 ↔
          (0 ≤ toSigned64 reg1.orig_rax ∨ 0 ≤ toSigned64 reg2.orig_rax) ∧
            reg1.orig_rax ≠ reg2.orig_rax) := by
  constructor
  · intro reg1 reg2
    unfold compare_registers_arch_x86
    rw [List.mem_append]
    constructor
    · rintro (h | h)
      · exact absurd h (orig_eax_not_mem_core reg1 reg2)
      · by_cases hc : (0 ≤ toSigned32 reg1.orig_eax ∨ 0 ≤ toSigned32 reg2.orig_eax) ∧
            reg1.orig_eax ≠ reg2.orig_eax
        · exact hc
        · simp [hc] at h
    · intro hc
      right
      simp [hc]
  · intro reg1 reg2
    unfold compare_registers_arch_x64
    simp only [List.append_assoc, List.mem_append]
    constructor
    · rintro (h | h)
      · exact absurd h (orig_rax_not_mem_core reg1 reg2)
      · by_cases hc : (0 ≤ toSigned64 reg1.orig_rax ∨ 0 ≤ toSigned64 reg2.orig_rax) ∧
            reg1.orig_rax ≠ reg2.orig_rax
        · exact hc
        · exfalso
          rcases h with h | h | h | h | h | h | h | h <;> simp [hc] at h
    · intro hc
      right; left
      simp [hc]

end RR

namespace RR

theorem mask4_ne_zero : mask_for_nbytes 4 ≠ 0 := by decide

/-- C3 counterexample: x86 register files that differ only within the low
16 bits of the `cs` segment register (`0x23` versus `0x2B`) are reported as
fully matching, because the code gives `xcs` comparison mask 0; the claim
says this difference must be reported as a mismatch. -/
theorem c3_segment_mask_counterexample :
    register_files_match_x86 { zeroX86Regs with xcs := 0x23 }
        { zeroX86Regs with xcs := 0x2B } = true ∧
      ({ zeroX86Regs with xcs := 0x23 } : X86Regs).xcs % 2 ^ 16 ≠
        ({ zeroX86Regs with xcs := 0x2B } : X86Regs).xcs % 2 ^ 16 := by
  constructor
  · decide
  · decide

/-- C3 (amended): the comparison masks of the segment registers are not
"low 16 bits".  `cs`, `ss`, `ds` and `es` have comparison mask 0 on both
architectures, so they are never reported as mismatching (not even for
differences within the low 16 bits); `fs` and `gs` are compared with the
full mask of their stored width, so any difference in their 32-bit stored
patterns (including above bit 15) is reported; on x86-64 all seven
`_upper` padding words (`cs_upper`, `ds_upper`, `es_upper`, `fs_upper`,
`gs_upper`, `ss_upper`, `eflags_upper`) are additionally compared
exactly. -/
theorem c3_segment_register_comparison :
    (∀ reg1 reg2 : X86Regs,
        RegName.xcs ∉ compare_registers_arch_x86 reg1 reg2 ∧
        RegName.xss ∉ compare_registers_arch_x86 reg1 reg2 ∧
        RegName.xds ∉ compare_registers_arch_x86 reg1 reg2 ∧
        RegName.xes ∉ compare_registers_arch_x86 reg1 reg2) ∧
    (∀ reg1 reg2 : X86Regs, reg1.wf → reg2.wf →
        (RegName.xfs ∈ compare_registers_arch_x86 reg1 reg2 ↔ reg1.xfs ≠ reg2.xfs) ∧
        (RegName.xgs ∈ compare_registers_arch_x86 reg1 reg2 ↔ reg1.xgs ≠ reg2.xgs)) ∧
    (∀ reg1 reg2 : X64Regs,
        RegName.cs ∉ compare_registers_arch_x64 reg1 reg2 ∧
        RegName.ss ∉ compare_registers_arch_x64 reg1 reg2 ∧
        RegName.ds ∉ compare_registers_arch_x64 reg1 reg2 ∧
        RegName.es ∉ compare_registers_arch_x64 reg1 reg2) ∧
    (∀ reg1 reg2 : X64Regs, reg1.wf → reg2.wf →
        (RegName.fs ∈ compare_registers_arch_x64 reg1 reg2 ↔ reg1.fs ≠ reg2.fs) ∧
        (RegName.gs ∈ compare_registers_arch_x64 reg1 reg2 ↔ reg1.gs ≠ reg2.gs) ∧
        (RegName.cs_upper ∈ compare_registers_arch_x64 reg1 reg2 ↔
          reg1.cs_upper ≠ reg2.cs_upper) ∧
        (RegName.ds_upper ∈ compare_registers_arch_x64 reg1 reg2 ↔
          reg1.ds_upper ≠ reg2.ds_upper) ∧
        (RegName.es_upper ∈ compare_registers_arch_x64 reg1 reg2 ↔
          reg1.es_upper ≠ reg2.es_upper) ∧
        (RegName.fs_upper ∈ compare_registers_arch_x64 reg1 reg2 ↔
          reg1.fs_upper ≠ reg2.fs_upper) ∧
        (RegName.gs_upper ∈ compare_registers_arch_x64 reg1 reg2 ↔
          reg1.gs_upper ≠ reg2.gs_upper) ∧
        (RegName.ss_upper ∈ compare_registers_arch_x64 reg1 reg2 ↔
          reg1.ss_upper ≠ reg2.ss_upper) ∧
        (RegName.eflags_upper ∈ compare_registers_arch_x64 reg1 reg2 ↔
          reg1.eflags_upper ≠ reg2.eflags_upper)) := by
  refine ⟨?_, ?_, ?_, ?_⟩
  · intro reg1 reg2
    refine ⟨?_, ?_, ?_, ?_⟩ <;>
      simp [compare_registers_arch_x86, mem_compare_registers_core, x86_register_table]
  · intro reg1 reg2 h1 h2
    obtain ⟨-, -, -, -, -, -, -, -, -, hf1, hg1, -⟩ := h1
    obtain ⟨-, -, -, -, -, -, -, -, -, hf2, hg2, -⟩ := h2
    constructor
    · simp [compare_registers_arch_x86, mem_compare_registers_core, x86_register_table,
        masked_xor_ne_zero_iff_32 hf1 hf2, mask4_ne_zero]
    · simp [compare_registers_arch_x86, mem_compare_registers_core, x86_register_table,
        masked_xor_ne_zero_iff_32 hg1 hg2, mask4_ne_zero]
  · intro reg1 reg2
    refine ⟨?_, ?_, ?_, ?_⟩ <;>
      simp [compare_registers_arch_x64, mem_compare_registers_core, x64_register_table]
  · intro reg1 reg2 h1 h2
    obtain ⟨-, -, -, -, -, -, -, -, -, -, -, -, -, -, -, -, -, -, -, -, -, -, -, -,
      -, -, -, -, -, -, hf1, -, hg1, -⟩ := h1
    obtain ⟨-, -, -, -, -, -, -, -, -, -, -, -, -, -, -, -, -, -, -, -, -, -, -, -,
      -, -, -, -, -, -, hf2, -, hg2, -⟩ := h2
    refine ⟨?_, ?_, ?_, ?_, ?_, ?_, ?_, ?_, ?_⟩
    · simp [compare_registers_arch_x64, mem_compare_registers_core, x64_register_table,
        masked_xor_ne_zero_iff_32 hf1 hf2, mask4_ne_zero]
    · simp [compare_registers_arch_x64, mem_compare_registers_core, x64_register_table,
        masked_xor_ne_zero_iff_32 hg1 hg2, mask4_ne_zero]
    all_goals
      simp [compare_registers_arch_x64, mem_compare_registers_core, x64_register_table]

/-- Witness for `c3_segment_register_comparison`: applying it at concrete
well-formed register files discharges the `wf` hypotheses. -/
theorem c3_segment_register_comparison_witness :
    RegName.xfs ∈ compare_registers_arch_x86 { zeroX86Regs with xfs := 2 ^ 16 }
      zeroX86Regs ↔ ({ zeroX86Regs with xfs := 2 ^ 16 } : X86Regs).xfs ≠
        zeroX86Regs.xfs :=
  (c3_segment_register_comparison.2.1 { zeroX86Regs with xfs := 2 ^ 16 } zeroX86Regs
    (by decide) (by decide)).1

end RR

namespace RR

/-! ## Syscall buffer commit protocol (src/preload/preload.c) -/

/-- Modelled from the spec: `stored_record_size` lives in
preload_interface.h, which is not under src/.  Per the spec a committed
record occupies its size rounded up for alignment, and the breakpoint table
in commit_raw_syscall is indexed by `num_rec_bytes / 8`, so records are
padded to a multiple of 8 bytes. -/
def stored_record_size (length : Nat) : Nat := (length + 7) / 8 * 8

/-- Modelled from the spec: the fixed record header
`(syscallno, desched_flag, size, return_value)` of a syscallbuf record
(preload_interface.h is not under src/); its byte size, with the 64-bit
return value and 32-bit size field, is 16. -/
def sizeof_syscallbuf_record : Nat := 16

/-- The ring-buffer header fields used by the commit path (spec section 3:
`(locked, num_rec_bytes, abort_commit, desched_signal_may_be_relevant)`). -/
structure syscallbuf_hdr where
  num_rec_bytes : Nat
  abort_commit : Bool
  desched_signal_may_be_relevant : Bool
  locked : Bool
  deriving Repr, DecidableEq

/-- The record header fields written by the commit path. -/
structure syscallbuf_record where
  syscallno : Int
  desched : Bool
  size : Nat
  ret : Int
  deriving Repr, DecidableEq

/-- The shared-memory state touched by one buffered-syscall transaction:
the ring header, the record under construction at `buffer_last()`, whether
the per-thread buffer exists, and the ring capacity
`SYSCALLBUF_BUFFER_SIZE`. -/
structure BufState where
  hdr : syscallbuf_hdr
  record : syscallbuf_record
  buffer_exists : Bool
  hdr_size : Nat
  buffer_size : Nat
  deriving Repr, DecidableEq

/-- `buffer_last()` as an offset into the buffer: the byte just after the
last committed record (`next_record(hdr)` = header size plus
`num_rec_bytes`). -/
def BufState.record_start (st : BufState) : Nat :=
  st.hdr_size + st.hdr.num_rec_bytes

/-- Observable shared-memory writes and protocol actions of a
buffered-syscall transaction, in program order. -/
inductive BufEvent where
  | set_locked (b : Bool)
  | write_rec_syscallno (n : Int)
  | write_rec_desched (b : Bool)
  | write_rec_size (n : Nat)
  | set_desched_flag (b : Bool)
  | arm_desched_event
  | untraced_syscall
  | set_abort_commit (b : Bool)
  | write_rec_ret (v : Int)
  | advance_num_rec_bytes (n : Nat)
  | disarm_desched_event
  deriving Repr, DecidableEq

/-- `prep_syscall` (src/preload/preload.c lines 822-842): bail if there is
no buffer or the buffer is already locked, otherwise set `locked` and hand
out record space.  Returns `none` on the bail-out paths. -/
def prep_syscall (st : BufState) : Option (BufState × List BufEvent) :=
  if !st.buffer_exists then none
  else if st.hdr.locked then none
  else some ({ st with hdr := { st.hdr with locked := true } },
             [BufEvent.set_locked true])

/-- `start_commit_buffered_syscall` (src/preload/preload.c lines 885-948)
for a record of `record_size` bytes (`record_end - record_start`): the two
overflow checks, then the breadcrumb writes of `syscallno`, `desched` and
`size` into the record, and for a may-block syscall the
`desched_signal_may_be_relevant = 1` write followed by arming the desched
event.  Returns the C `return 0/1` plus the updated state and the emitted
events. -/
def start_commit_buffered_syscall (syscallno : Int) (record_size : Nat)
    (may_block : Bool) (st : BufState) : Bool × BufState × List BufEvent :=
  if !st.buffer_exists then (false, st, [])
  else
    let stored_end := st.record_start + stored_record_size record_size
    if stored_end < st.record_start + sizeof_syscallbuf_record then
      (false, st, [])
    else if stored_end > st.buffer_size - sizeof_syscallbuf_record then
      (false, { st with hdr := { st.hdr with locked := false } },
       [BufEvent.set_locked false])
    else
      let st1 := { st with
        record := { st.record with
          syscallno := syscallno, desched := may_block, size := record_size } }
      let evs := [BufEvent.write_rec_syscallno syscallno,
                  BufEvent.write_rec_desched may_block,
                  BufEvent.write_rec_size record_size]
      if may_block then
        (true,
         { st1 with hdr := { st1.hdr with desched_signal_may_be_relevant := true } },
         evs ++ [BufEvent.set_desched_flag true, BufEvent.arm_desched_event])
      else
        (true, st1, evs)

/-- `commit_raw_syscall` (src/preload/preload.c lines 957-1036) with the
record resized to `final_size` bytes: store the (possibly adjusted) record
size, clear `desched_signal_may_be_relevant`, check the breadcrumb
syscall number (`fatal` modelled as `none`), then either roll back an
aborted commit (clear `abort_commit`, zero the record's `ret`) or complete
it (store `ret`, advance `num_rec_bytes` by the stored record size), then
disarm the desched event for may-block records and release the lock.
Returns the syscall result plus the updated state and the emitted events. -/
def commit_raw_syscall (syscallno : Int) (final_size : Nat) (ret : Int)
    (st : BufState) : Option (Int × BufState × List BufEvent) :=
  let st1 := { st with record := { st.record with size := final_size } }
  let evs1 := [BufEvent.write_rec_size final_size]
  if !st.hdr.locked then none
  else
    let st2 := { st1 with
      hdr := { st1.hdr with desched_signal_may_be_relevant := false } }
    let evs2 := evs1 ++ [BufEvent.set_desched_flag false]
    if st.record.syscallno ≠ syscallno then none
    else
      let (st3, evs3) :=
        if st2.hdr.abort_commit then
          ({ st2 with hdr := { st2.hdr with abort_commit := false },
                      record := { st2.record with ret := 0 } },
           evs2 ++ [BufEvent.set_abort_commit false, BufEvent.write_rec_ret 0])
        else
          ({ st2 with record := { st2.record with ret := ret },
                      hdr := { st2.hdr with num_rec_bytes :=
                        st2.hdr.num_rec_bytes + stored_record_size final_size } },
           evs2 ++ [BufEvent.write_rec_ret ret,
                    BufEvent.advance_num_rec_bytes (stored_record_size final_size)])
      let (st4, evs4) :=
        if st3.record.desched then
          (st3, evs3 ++ [BufEvent.disarm_desched_event])
        else (st3, evs3)
      some (ret, { st4 with hdr := { st4.hdr with locked := false } },
            evs4 ++ [BufEvent.set_locked false])

/-- One whole buffered-syscall transaction as performed by the syscall
hooks in src/preload/preload.c: `prep_syscall`, then
`start_commit_buffered_syscall`, then the untraced syscall instruction,
during which the tracer may flag an aborted commit (`tracer_aborts`),
then `commit_raw_syscall`.  `none` models the paths that fall back to a
traced syscall or die. -/
def buffered_syscall_flow (syscallno : Int) (record_size final_size : Nat)
    (may_block tracer_aborts : Bool) (ret : Int) (st : BufState) :
    Option (Int × BufState × List BufEvent) := do
  let (st1, evs1) ← prep_syscall st
  let (ok, st2, evs2) := start_commit_buffered_syscall syscallno record_size
    may_block st1
  if !ok then none
  else
    let st3 := { st2 with hdr := { st2.hdr with abort_commit := tracer_aborts } }
    let evs3 := evs2 ++ [BufEvent.untraced_syscall] ++
      (if tracer_aborts then [BufEvent.set_abort_commit true] else [])
    let (res, st4, evs4) ← commit_raw_syscall syscallno final_size ret st3
    some (res, st4, evs1 ++ evs3 ++ evs4)

end RR

namespace RR

/-- The desched-protocol steps named by the spec's commit-ordering rule. -/
def is_desched_protocol_step : BufEvent → Bool
  | .set_desched_flag _ => true
  | .arm_desched_event => true
  | .untraced_syscall => true
  | .disarm_desched_event => true
  | _ => false

/-- The commit-path writes relevant to record visibility: record size,
record return value, and the `num_rec_bytes` advance. -/
def is_commit_write : BufEvent → Bool
  | .write_rec_size _ => true
  | .write_rec_ret _ => true
  | .advance_num_rec_bytes _ => true
  | _ => false

/-- A concrete buffer state for witnesses and counterexamples: empty ring,
unlocked, 40-byte header, 1024-byte buffer. -/
def bufSt0 : BufState := ⟨⟨0, false, false, false⟩, ⟨0, false, 0, 0⟩, true, 40, 1024⟩

/-- C2 counterexample: running a concrete buffered may-block syscall to
completion, the protocol steps occur in the order (set flag, arm,
untraced syscall, CLEAR FLAG, DISARM) — `commit_raw_syscall` clears
`desched_signal_may_be_relevant` before it disarms the counter — and not
in the claimed order (..., disarm, clear). -/
theorem c2_commit_order_counterexample :
    ((buffered_syscall_flow 7 32 24 true false 5 bufSt0).map
        (fun out => (out.2.2).filter is_desched_protocol_step) =
      some [BufEvent.set_desched_flag true, BufEvent.arm_desched_event,
            BufEvent.untraced_syscall, BufEvent.set_desched_flag false,
            BufEvent.disarm_desched_event]) ∧
    ((buffered_syscall_flow 7 32 24 true false 5 bufSt0).map
        (fun out => (out.2.2).filter is_desched_protocol_step) ≠
      some [BufEvent.set_desched_flag true, BufEvent.arm_desched_event,
            BufEvent.untraced_syscall, BufEvent.disarm_desched_event,
            BufEvent.set_desched_flag false]) := by
  constructor
  · decide
  · decide

/-- C2 (amended): for every buffered may-block syscall that commits
(successfully or with an aborted commit), the five protocol steps occur
exactly once each, in the order: set `desched_signal_may_be_relevant`;
arm the desched counter; untraced syscall; CLEAR the flag; DISARM the
counter.  The flag is set before the counter is armed, and the flag is
cleared before the counter is disarmed (the converse of the claimed
disarm-then-clear order). -/
theorem c2_commit_order (syscallno : Int) (record_size final_size : Nat)
    (tracer_aborts : Bool) (ret : Int) (st : BufState)
    (hbuf : st.buffer_exists = true) (hlock : st.hdr.locked = false)
    (h1 : ¬stored_record_size record_size < sizeof_syscallbuf_record)
    (h2 : ¬st.buffer_size - sizeof_syscallbuf_record <
        st.hdr_size + st.hdr.num_rec_bytes + stored_record_size record_size) :
    (buffered_syscall_flow syscallno record_size final_size true tracer_aborts
        ret st).map (fun out => (out.2.2).filter is_desched_protocol_step) =
      some [BufEvent.set_desched_flag true, BufEvent.arm_desched_event,
            BufEvent.untraced_syscall, BufEvent.set_desched_flag false,
            BufEvent.disarm_desched_event] := by
  cases tracer_aborts <;>
    simp [buffered_syscall_flow, prep_syscall, start_commit_buffered_syscall,
      commit_raw_syscall, BufState.record_start, hbuf, hlock, h1, h2,
      is_desched_protocol_step]

/-- Witness for `c2_commit_order` at a concrete input. -/
theorem c2_commit_order_witness :
    (buffered_syscall_flow 7 32 24 true true 5 bufSt0).map
        (fun out => (out.2.2).filter is_desched_protocol_step) =
      some [BufEvent.set_desched_flag true, BufEvent.arm_desched_event,
            BufEvent.untraced_syscall, BufEvent.set_desched_flag false,
            BufEvent.disarm_desched_event] :=
  c2_commit_order 7 32 24 true 5 bufSt0 (by decide) (by decide) (by decide)
    (by decide)

/-- C4: in every successful (non-aborted) buffered-syscall commit, the
record body is completed before `num_rec_bytes` moves: the commit-relevant
writes are exactly the record-size writes and the record-ret write followed
last by the single `num_rec_bytes` advance, the advance is by exactly
`stored_record_size` of the record's stored size, and the final
`num_rec_bytes` equals the old value plus that amount. -/
theorem c4_commit_advances_num_rec_bytes_last (syscallno : Int)
    (record_size final_size : Nat) (may_block : Bool) (ret : Int)
    (st : BufState)
    (hbuf : st.buffer_exists = true) (hlock : st.hdr.locked = false)
    (habort : st.hdr.abort_commit = false)
    (h1 : ¬stored_record_size record_size < sizeof_syscallbuf_record)
    (h2 : ¬st.buffer_size - sizeof_syscallbuf_record <
        st.hdr_size + st.hdr.num_rec_bytes + stored_record_size record_size) :
    (buffered_syscall_flow syscallno record_size final_size may_block false
        ret st).map (fun out =>
          ((out.2.2).filter is_commit_write, out.2.1.hdr.num_rec_bytes)) =
      some ([BufEvent.write_rec_size record_size,
             BufEvent.write_rec_size final_size,
             BufEvent.write_rec_ret ret,
             BufEvent.advance_num_rec_bytes (stored_record_size final_size)],
            st.hdr.num_rec_bytes + stored_record_size final_size) := by
  cases may_block <;>
    simp [buffered_syscall_flow, prep_syscall, start_commit_buffered_syscall,
      commit_raw_syscall, BufState.record_start, hbuf, hlock, habort, h1, h2,
      is_commit_write]

/-- Witness for `c4_commit_advances_num_rec_bytes_last` at a concrete
input. -/
theorem c4_commit_advances_num_rec_bytes_last_witness :
    (buffered_syscall_flow 7 32 24 false false 5 bufSt0).map (fun out =>
        ((out.2.2).filter is_commit_write, out.2.1.hdr.num_rec_bytes)) =
      some ([BufEvent.write_rec_size 32, BufEvent.write_rec_size 24,
             BufEvent.write_rec_ret 5,
             BufEvent.advance_num_rec_bytes (stored_record_size 24)],
            bufSt0.hdr.num_rec_bytes + stored_record_size 24) :=
  c4_commit_advances_num_rec_bytes_last 7 32 24 false 5 bufSt0 (by decide)
    (by decide) (by decide) (by decide) (by decide)

/-- C10: when `commit_raw_syscall` runs with `abort_commit` set, the ring
is left as if the record had never been committed: `num_rec_bytes` is
unchanged (and no advance event is ever emitted), `abort_commit` is
cleared, the record's `ret` field is zeroed, and the `locked` flag is
cleared before returning. -/
theorem c10_aborted_commit_rolls_back (syscallno : Int)
    (record_size final_size : Nat) (may_block : Bool) (ret : Int)
    (st : BufState)
    (hbuf : st.buffer_exists = true) (hlock : st.hdr.locked = false)
    (h1 : ¬stored_record_size record_size < sizeof_syscallbuf_record)
    (h2 : ¬st.buffer_size - sizeof_syscallbuf_record <
        st.hdr_size + st.hdr.num_rec_bytes + stored_record_size record_size) :
    (buffered_syscall_flow syscallno record_size final_size may_block true
        ret st).map (fun out =>
          (out.2.1.hdr.num_rec_bytes, out.2.1.hdr.abort_commit,
           out.2.1.record.ret, out.2.1.hdr.locked,
           (out.2.2).filter (fun e => is_commit_write e &&
             !(is_desched_protocol_step e)))) =
      some (st.hdr.num_rec_bytes, false, 0, false,
            [BufEvent.write_rec_size record_size,
             BufEvent.write_rec_size final_size,
             BufEvent.write_rec_ret 0]) := by
  cases may_block <;>
    simp [buffered_syscall_flow, prep_syscall, start_commit_buffered_syscall,
      commit_raw_syscall, BufState.record_start, hbuf, hlock, h1, h2,
      is_commit_write, is_desched_protocol_step]

/-- Witness for `c10_aborted_commit_rolls_back` at a concrete input. -/
theorem c10_aborted_commit_rolls_back_witness :
    (buffered_syscall_flow 7 32 24 true true 5 bufSt0).map (fun out =>
        (out.2.1.hdr.num_rec_bytes, out.2.1.hdr.abort_commit,
         out.2.1.record.ret, out.2.1.hdr.locked,
         (out.2.2).filter (fun e => is_commit_write e &&
           !(is_desched_protocol_step e)))) =
      some (bufSt0.hdr.num_rec_bytes, false, 0, false,
            [BufEvent.write_rec_size 32, BufEvent.write_rec_size 24,
             BufEvent.write_rec_ret 0]) :=
  c10_aborted_commit_rolls_back 7 32 24 true 5 bufSt0 (by decide) (by decide)
    (by decide) (by decide)

end RR

namespace RR

/-! ## Remote-syscall scratch selection (src/AutoRemoteSyscalls.cc) -/

/-- `PROT_READ` on Linux x86. -/
def PROT_READ : Nat := 1

/-- `PROT_WRITE` on Linux x86. -/
def PROT_WRITE : Nat := 2

/-- `MAP_PRIVATE` on Linux x86. -/
def MAP_PRIVATE : Nat := 2

/-- The fields of a `KernelMapping` (src/AddressSpace.h lines 52-174) used
by scratch selection: the `[start, end)` range (the end field is named
`stop` because `end` is reserved in Lean), `prot` and `flags`. -/
structure KernelMapping where
  start : Nat
  stop : Nat
  prot : Nat
  flags : Nat
  deriving Repr, DecidableEq

/-- `is_usable_area` (src/AutoRemoteSyscalls.cc lines 77-80):
`(km.prot() & (PROT_READ | PROT_WRITE)) == (PROT_READ | PROT_WRITE) &&
(km.flags() & MAP_PRIVATE)`. -/
def is_usable_area (km : KernelMapping) : Bool :=
  ((km.prot &&& (PROT_READ ||| PROT_WRITE)) == (PROT_READ ||| PROT_WRITE)) &&
    ((km.flags &&& MAP_PRIVATE) != 0)

/-- `AddressSpace::mapping_of` on the ordered mapping list: the mapping
containing byte `a`, if any (`has_mapping` is its `isSome`). -/
def mapping_of (maps : List KernelMapping) (a : Nat) : Option KernelMapping :=
  maps.find? (fun m => m.start ≤ a && a < m.stop)

/-- `AutoRemoteSyscalls::maybe_fix_stack_pointer`
(src/AutoRemoteSyscalls.cc lines 82-107) in the `done_initial_exec` case:
keep `sp` if the byte `sp - 1` lies in a mapping that `is_usable_area`
accepts with `m.start() + 2048 <= sp`; otherwise take the first usable
mapping from `maps()` and use its end, dying (`none`, the `ASSERT` on a
null `found_stack.start()`) when no usable mapping exists. -/
def maybe_fix_stack_pointer (done_initial_exec : Bool)
    (maps : List KernelMapping) (sp : Nat) : Option Nat :=
  if !done_initial_exec then some sp
  else
    let keep :=
      match mapping_of maps (sp - 1) with
      | some m => is_usable_area m && m.start + 2048 ≤ sp
      | none => false
    if keep then some sp
    else
      match maps.find? is_usable_area with
      | some found_stack =>
          if found_stack.start == 0 then none else some found_stack.stop
      | none => none

/-- A mapping is usable iff it is readable, writable and private, as
bit tests on `prot` and `flags`. -/
theorem is_usable_area_iff (km : KernelMapping) :
    is_usable_area km = true ↔
      (km.prot &&& PROT_READ ≠ 0 ∧ km.prot &&& PROT_WRITE ≠ 0 ∧
        km.flags &&& MAP_PRIVATE ≠ 0) := by
  have hand : (km.prot &&& 3 = 3) ↔ (km.prot &&& 1 ≠ 0 ∧ km.prot &&& 2 ≠ 0) := by
    have h3 : km.prot &&& 3 = km.prot % 4 := Nat.and_pow_two_sub_one_eq_mod km.prot 2
    have h1 : km.prot &&& 1 = km.prot % 2 := Nat.and_one_is_mod km.prot
    have h2 : km.prot &&& 2 = (km.prot.testBit 1).toNat * 2 := Nat.and_two_pow km.prot 1
    have ht : km.prot.testBit 1 = decide (km.prot / 2 % 2 = 1) :=
      @Nat.testBit_to_div_mod 1 km.prot
    rw [h3, h1, h2, ht]
    have hd : km.prot / 2 % 2 = 0 ∨ km.prot / 2 % 2 = 1 := by omega
    rcases hd with h | h <;> simp [h] <;> omega
  unfold is_usable_area PROT_READ PROT_WRITE MAP_PRIVATE
  simp only [Bool.and_eq_true, beq_iff_eq, bne_iff_ne, ne_eq]
  constructor
  · rintro ⟨ha, hb⟩
    have := hand.mp (by simpa using ha)
    exact ⟨this.1, this.2, by simpa using hb⟩
  · rintro ⟨ha, hb, hc⟩
    refine ⟨by simpa using hand.mpr ⟨ha, hb⟩, by simpa using hc⟩

/-- C7 counterexample: a write-only (not readable) private mapping.  The
byte below `sp` lies in it, it is private and writable, and `sp` has 2 KiB
of headroom above its start, so the claim says the stack pointer is kept;
the code's `is_usable_area` also demands `PROT_READ`, rejects it, and the
fix-up path runs instead (and, with no usable mapping anywhere, dies). -/
theorem c7_scratch_counterexample :
    (mapping_of [⟨4096, 8192, PROT_WRITE, MAP_PRIVATE⟩] (6144 - 1) =
      some ⟨4096, 8192, PROT_WRITE, MAP_PRIVATE⟩) ∧
    (PROT_WRITE &&& PROT_WRITE ≠ 0 ∧ MAP_PRIVATE &&& MAP_PRIVATE ≠ 0 ∧
      4096 + 2048 ≤ 6144) ∧
    maybe_fix_stack_pointer true [⟨4096, 8192, PROT_WRITE, MAP_PRIVATE⟩] 6144 ≠
      some 6144 := by
  refine ⟨by decide, ⟨by decide, by decide, by decide⟩, by decide⟩

/-- C7 (amended): with the usability predicate strengthened to require the
mapping to be readable as well as writable and private, scratch selection
behaves as claimed: the stack pointer is kept when the byte below it lies
in a readable, writable, private mapping whose start is at least 2048
bytes below the stack pointer; otherwise any returned scratch pointer is
the end of a mapping satisfying that same predicate. -/
theorem c7_scratch_selection :
    (∀ (maps : List KernelMapping) (sp : Nat) (m : KernelMapping), 0 < sp →
        mapping_of maps (sp - 1) = some m →
        m.prot &&& PROT_READ ≠ 0 → m.prot &&& PROT_WRITE ≠ 0 →
        m.flags &&& MAP_PRIVATE ≠ 0 → m.start + 2048 ≤ sp →
        maybe_fix_stack_pointer true maps sp = some sp) ∧
    (∀ (maps : List KernelMapping) (sp sp' : Nat),
        ¬(∃ m, mapping_of maps (sp - 1) = some m ∧
            m.prot &&& PROT_READ ≠ 0 ∧ m.prot &&& PROT_WRITE ≠ 0 ∧
            m.flags &&& MAP_PRIVATE ≠ 0 ∧ m.start + 2048 ≤ sp) →
        maybe_fix_stack_pointer true maps sp = some sp' →
        ∃ m, m ∈ maps ∧ m.prot &&& PROT_READ ≠ 0 ∧ m.prot &&& PROT_WRITE ≠ 0 ∧
          m.flags &&& MAP_PRIVATE ≠ 0 ∧ sp' = m.stop) := by
  constructor
  · intro maps sp m hsp hmap hr hw hp hroom
    have husable : is_usable_area m = true := (is_usable_area_iff m).mpr ⟨hr, hw, hp⟩
    unfold maybe_fix_stack_pointer
    rw [hmap]
    simp [husable, hroom]
  · intro maps sp sp' hnot hfix
    unfold maybe_fix_stack_pointer at hfix
    simp only [Bool.not_true, if_false] at hfix
    have hkeep : (match mapping_of maps (sp - 1) with
        | some m => is_usable_area m && m.start + 2048 ≤ sp
        | none => false) = false := by
      cases hm : mapping_of maps (sp - 1) with
      | none => rfl
      | some m =>
          simp only
          by_contra hcon
          rw [Bool.not_eq_false, Bool.and_eq_true, decide_eq_true_eq] at hcon
          obtain ⟨hu, hroom⟩ := hcon
          obtain ⟨hr, hw, hp⟩ := (is_usable_area_iff m).mp hu
          exact hnot ⟨m, hm, hr, hw, hp, hroom⟩
    rw [hkeep] at hfix
    simp only [Bool.false_eq_true, if_false] at hfix
    cases hf : maps.find? is_usable_area with
    | none => rw [hf] at hfix; exact absurd hfix (by simp)
    | some found =>
        rw [hf] at hfix
        simp only [] at hfix
        have hmem : found ∈ maps := List.mem_of_find?_eq_some hf
        have husable : is_usable_area found = true := List.find?_some hf
        obtain ⟨hr, hw, hp⟩ := (is_usable_area_iff found).mp husable
        by_cases hz : found.start == 0
        · rw [if_pos hz] at hfix; exact absurd hfix (by simp)
        · rw [if_neg hz] at hfix
          exact ⟨found, hmem, hr, hw, hp, (Option.some.inj hfix).symm⟩

/-- Witness for `c7_scratch_selection` at a concrete read-write private
mapping with exactly 2 KiB headroom. -/
theorem c7_scratch_selection_witness :
    maybe_fix_stack_pointer true
      [⟨4096, 8192, PROT_READ ||| PROT_WRITE, MAP_PRIVATE⟩] 6144 = some 6144 :=
  c7_scratch_selection.1 [⟨4096, 8192, PROT_READ ||| PROT_WRITE, MAP_PRIVATE⟩]
    6144 ⟨4096, 8192, PROT_READ ||| PROT_WRITE, MAP_PRIVATE⟩ (by decide)
    (by decide) (by decide) (by decide) (by decide) (by decide)

end RR

namespace RR

/-! ## Replay command exit codes (src/ReplayCommand.cc) -/

/-- `ReplayFlags::process_created_how` (src/ReplayCommand.cc line 80). -/
inductive CreatedHow where
  | created_none
  | created_exec
  | created_fork
  deriving Repr, DecidableEq

/-- The replay flags consumed by the exit-code logic of
`ReplayCommand::run`: `target_command` (set by `-p <COMMAND>`) and
`process_created_how` (set by `-p`/`-f`). -/
structure ReplayFlagsM where
  target_command : String
  process_created_how : CreatedHow
  deriving Repr, DecidableEq

/-- Results of the three trace queries `ReplayCommand::run` makes:
`find_pid_for_command` (≤ 0 means no EXEC of that command in the trace),
`pid_exists` and `pid_execs` for the target process. -/
structure TraceQuery where
  find_pid_for_command : Int
  pid_exists : Bool
  pid_execs : Bool
  deriving Repr, DecidableEq

/-- Outcome of one iteration of the argument loop in `ReplayCommand::run`
(lines 440-450): a recognised replay/global option, a trace-dir positional
argument, or an argument nothing accepts. -/
inductive ParsedArg where
  | replay_opt
  | trace_dir_arg
  | unrecognized
  deriving Repr, DecidableEq

/-- The `while (!args.empty())` loop of `ReplayCommand::run`: recognised
options continue; the first positional argument is taken as the trace dir;
anything else (including a second positional argument) prints help and
fails. -/
def parse_args_ok : Bool → List ParsedArg → Bool
  | _, [] => true
  | found_dir, .replay_opt :: rest => parse_args_ok found_dir rest
  | false, .trace_dir_arg :: rest => parse_args_ok true rest
  | true, .trace_dir_arg :: _ => false
  | _, .unrecognized :: _ => false

/-- `ReplayCommand::run` (src/ReplayCommand.cc lines 430-480) reduced to
its exit code: 1 under `RUNNING_UNDER_RR`; 1 when the argument loop fails;
2 when `-p <COMMAND>` names a command with no EXEC in the trace; 2 when the
target process is not in the trace; 2 when `-p <PID>` requires an exec that
never happened; otherwise the code of `replay()`, which returns 0 on a
clean finish. -/
def replay_command_run (running_under_rr : Bool) (args : List ParsedArg)
    (flags : ReplayFlagsM) (q : TraceQuery) : Int :=
  if running_under_rr then 1
  else if !parse_args_ok false args then 1
  else if flags.target_command ≠ "" ∧ q.find_pid_for_command ≤ 0 then 2
  else if flags.process_created_how ≠ CreatedHow.created_none ∧ !q.pid_exists then 2
  else if flags.process_created_how = CreatedHow.created_exec ∧ !q.pid_execs then 2
  else 0

/-- C9: the replay command exits 1 on configuration errors (running under
rr, or an unrecognised argument), 2 when the requested process is not
found (command name with no EXEC record, pid absent from the trace, or a
required exec that never happened), and 0 on a clean finish. -/
theorem c9_replay_exit_codes :
    (∀ args flags q, replay_command_run true args flags q = 1) ∧
    (∀ args flags q, parse_args_ok false args = false →
        replay_command_run false args flags q = 1) ∧
    (∀ args flags q, parse_args_ok false args = true →
        flags.target_command ≠ "" → q.find_pid_for_command ≤ 0 →
        replay_command_run false args flags q = 2) ∧
    (∀ args flags q, parse_args_ok false args = true →
        (flags.target_command = "" ∨ 0 < q.find_pid_for_command) →
        flags.process_created_how ≠ CreatedHow.created_none →
        q.pid_exists = false →
        replay_command_run false args flags q = 2) ∧
    (∀ args flags q, parse_args_ok false args = true →
        (flags.target_command = "" ∨ 0 < q.find_pid_for_command) →
        flags.process_created_how = CreatedHow.created_exec →
        q.pid_exists = true → q.pid_execs = false →
        replay_command_run false args flags q = 2) ∧
    (∀ args flags q, parse_args_ok false args = true →
        (flags.target_command = "" ∨ 0 < q.find_pid_for_command) →
        (flags.process_created_how ≠ CreatedHow.created_none → q.pid_exists = true) →
        (flags.process_created_how = CreatedHow.created_exec → q.pid_execs = true) →
        replay_command_run false args flags q = 0) := by
  refine ⟨?_, ?_, ?_, ?_, ?_, ?_⟩
  · intro args flags q
    simp [replay_command_run]
  · intro args flags q h
    simp [replay_command_run, h]
  · intro args flags q h hc hf
    simp [replay_command_run, h, hc, hf]
  · intro args flags q h hc hhow hex
    have hc' : ¬(flags.target_command ≠ "" ∧ q.find_pid_for_command ≤ 0) := by
      rcases hc with hc | hc
      · simp [hc]
      · intro hcon; omega
    simp [replay_command_run, h, hc', hhow, hex]
  · intro args flags q h hc hhow hex hexec
    have hc' : ¬(flags.target_command ≠ "" ∧ q.find_pid_for_command ≤ 0) := by
      rcases hc with hc | hc
      · simp [hc]
      · intro hcon; omega
    simp [replay_command_run, h, hc', hhow, hex, hexec]
  · intro args flags q h hc hex hexec
    have hc' : ¬(flags.target_command ≠ "" ∧ q.find_pid_for_command ≤ 0) := by
      rcases hc with hc | hc
      · simp [hc]
      · intro hcon; omega
    by_cases hhow : flags.process_created_how = CreatedHow.created_none
    · simp [replay_command_run, h, hc', hhow]
    · have h1 := hex hhow
      by_cases h2 : flags.process_created_how = CreatedHow.created_exec
      · simp [replay_command_run, h, hc', hhow, h1, h2, hexec h2]
      · simp [replay_command_run, h, hc', hhow, h1, h2]

/-- Witness for `c9_replay_exit_codes`: the clean-finish branch at a
concrete input. -/
theorem c9_replay_exit_codes_witness :
    replay_command_run false [ParsedArg.trace_dir_arg]
      ⟨"", CreatedHow.created_none⟩ ⟨0, false, false⟩ = 0 :=
  c9_replay_exit_codes.2.2.2.2.2 [ParsedArg.trace_dir_arg]
    ⟨"", CreatedHow.created_none⟩ ⟨0, false, false⟩ (by decide) (Or.inl rfl)
    (fun h => absurd rfl h) (fun h => by cases h)

end RR

namespace RR

/-! ## Trace version check (src/TraceStream.cc) -/

/-- `TRACE_VERSION` (src/TraceStream.cc line 29). -/
def TRACE_VERSION : Int := 41

/-- The three relevant states of the trace's `version` file for
`TraceReader::TraceReader` (src/TraceStream.cc lines 587-638): the file
cannot be opened, `vfile >> version` fails (leaving `version == 0`), or it
parses to an integer. -/
inductive VersionFile where
  | missing
  | unparsable
  | parsed (n : Int)
  deriving Repr, DecidableEq

/-- One `fprintf` argument of the fatal version messages: the version-file
path or a printed integer. -/
inductive MsgArg where
  | filepath
  | num (n : Int)
  deriving Repr, DecidableEq

/-- The version check in `TraceReader::TraceReader` (src/TraceStream.cc
lines 598-628): a missing file prints a message whose arguments are the
version-file path three times, then exits; a parse failure or a version
different from `TRACE_VERSION` prints the path, the parsed version (0 on
parse failure), the expected `TRACE_VERSION` and the path twice more, then
exits; otherwise the constructor proceeds. `Except.error` carries the
`fprintf` argument list of the fatal message. -/
def trace_reader_version_check : VersionFile → Except (List MsgArg) Unit
  | .missing => .error [.filepath, .filepath, .filepath]
  | .unparsable =>
      .error [.filepath, .num 0, .num TRACE_VERSION, .filepath, .filepath]
  | .parsed n =>
      if n ≠ TRACE_VERSION then
        .error [.filepath, .num n, .num TRACE_VERSION, .filepath, .filepath]
      else .ok ()

/-- C6 counterexample: with the version file missing, the constructor is
fatal and its message identifies the version file, but the message does
not contain the expected value 41, contrary to the claim that every such
message identifies the expected value. -/
theorem c6_version_counterexample :
    trace_reader_version_check VersionFile.missing =
      Except.error [MsgArg.filepath, MsgArg.filepath, MsgArg.filepath] ∧
      MsgArg.num 41 ∉ [MsgArg.filepath, MsgArg.filepath, MsgArg.filepath] := by
  constructor
  · rfl
  · decide

/-- C6 (amended): opening a trace whose version file is missing,
unparsable, or different from 41 is fatal with a user-readable message
identifying the version file, and the constructor returns normally exactly
when the version file parses to exactly 41; the expected value 41 appears
in the message for the unparsable and wrong-integer cases, but the
missing-file message identifies only the file. -/
theorem c6_version_check :
    (∀ v, trace_reader_version_check v = Except.ok () ↔
        v = VersionFile.parsed TRACE_VERSION) ∧
    (∀ v msg, trace_reader_version_check v = Except.error msg →
        MsgArg.filepath ∈ msg) ∧
    (∀ n msg, trace_reader_version_check (VersionFile.parsed n) =
          Except.error msg →
        MsgArg.num n ∈ msg ∧ MsgArg.num TRACE_VERSION ∈ msg) ∧
    (∀ msg, trace_reader_version_check VersionFile.unparsable =
          Except.error msg → MsgArg.num TRACE_VERSION ∈ msg) ∧
    (∀ msg, trace_reader_version_check VersionFile.missing =
          Except.error msg → MsgArg.num TRACE_VERSION ∉ msg) := by
  refine ⟨?_, ?_, ?_, ?_, ?_⟩
  · intro v
    cases v with
    | missing => simp [trace_reader_version_check]
    | unparsable => simp [trace_reader_version_check]
    | parsed n =>
        by_cases h : n = TRACE_VERSION <;> simp [trace_reader_version_check, h]
  · intro v msg h
    cases v with
    | missing => cases h; decide
    | unparsable => cases h; decide
    | parsed n =>
        by_cases hn : n = TRACE_VERSION
        · simp [trace_reader_version_check, hn] at h
        · simp only [trace_reader_version_check, if_pos hn] at h
          cases h; simp
  · intro n msg h
    by_cases hn : n = TRACE_VERSION
    · simp [trace_reader_version_check, hn] at h
    · simp only [trace_reader_version_check, if_pos hn] at h
      cases h; simp
  · intro msg h
    cases h; decide
  · intro msg h
    cases h; decide

/-- Witness for `c6_version_check`: the wrong-version message at version
40 contains both the parsed and the expected value. -/
theorem c6_version_check_witness :
    MsgArg.num 40 ∈ [MsgArg.filepath, MsgArg.num 40, MsgArg.num TRACE_VERSION,
        MsgArg.filepath, MsgArg.filepath] ∧
      MsgArg.num TRACE_VERSION ∈ [MsgArg.filepath, MsgArg.num 40,
        MsgArg.num TRACE_VERSION, MsgArg.filepath, MsgArg.filepath] :=
  c6_version_check.2.2.1 40 _ rfl

end RR

namespace RR

/-! ## Robust memory-map iteration (src/AddressSpace.h) -/

/-- `MemoryRange` keys of the `AddressSpace::MemoryMap`.  Modelled from the
spec: MemoryRange.h is not under src/; the spec describes an ordered,
non-overlapping map from `[start, end)` half-open ranges (the end field is
named `stop` because `end` is reserved in Lean). -/
structure MemoryRange where
  start : Nat
  stop : Nat
  deriving Repr, DecidableEq

/-- Modelled from the spec: two half-open ranges intersect when they share
a byte, i.e. when `max start < min end`. -/
def MemoryRange.intersects (a b : MemoryRange) : Bool :=
  max a.start b.start < min a.stop b.stop

/-- `MappingComparator` (src/AddressSpace.h lines 190-194): intersecting
ranges compare equivalent; otherwise order by start address. -/
def MappingComparator (a b : MemoryRange) : Bool :=
  if a.intersects b then false else a.start < b.start

/-- `std::map::lower_bound` on the in-order entry list of the
`MemoryMap`: the first entry `e` whose key is not
`MappingComparator`-before the probe key `k`. -/
def lower_bound (m : List (MemoryRange × KernelMapping)) (k : MemoryRange) :
    Option (MemoryRange × KernelMapping) :=
  m.find? (fun e => !MappingComparator e.1 k)

/-- The `Maps::iterator` loop (src/AddressSpace.h lines 393-425): each
dereference re-locates the position as
`outer.lower_bound(MemoryRange(ptr, ptr))` and `operator++` sets
`ptr = to_it()->second.map.end()`; iteration ends when the lookup runs off
the map.  `fuel` bounds the number of steps (the map's size suffices). -/
def iter_run : Nat → List (MemoryRange × KernelMapping) → Nat →
    List (MemoryRange × KernelMapping)
  | 0, _, _ => []
  | fuel + 1, m, ptr =>
      match lower_bound m ⟨ptr, ptr⟩ with
      | none => []
      | some e => e :: iter_run fuel m e.2.stop

/-- Well-formedness of a memory map per the AddressSpace invariants:
entries are ordered and non-overlapping, ranges are non-empty, and each
entry's key range equals its mapping's range. -/
def mm_wf (m : List (MemoryRange × KernelMapping)) : Prop :=
  m.Pairwise (fun a b => a.1.stop ≤ b.1.start) ∧
  (∀ e ∈ m, e.1.start < e.1.stop) ∧
  (∀ e ∈ m, e.1.start = e.2.start ∧ e.1.stop = e.2.stop)

/-- An empty probe range `[p, p)` intersects nothing, so the comparator
reduces to a start-address comparison. -/
theorem comparator_empty_key (a : MemoryRange) (p : Nat) :
    MappingComparator a ⟨p, p⟩ = decide (a.start < p) := by
  unfold MappingComparator MemoryRange.intersects
  simp only []
  have h : ¬(max a.start p < min a.stop p) := by
    simp only [Nat.lt_min, Nat.max_lt]
    omega
  simp [h]

/-- Entries wholly before the iteration pointer are skipped by every
re-lookup, so they do not affect the rest of the iteration. -/
theorem iter_run_skip (pre rest : List (MemoryRange × KernelMapping))
    (hwf : mm_wf (pre ++ rest)) :
    ∀ (fuel p : Nat), (∀ e ∈ pre, e.1.start < p) →
      iter_run fuel (pre ++ rest) p = iter_run fuel rest p := by
  intro fuel
  induction fuel with
  | zero => intro p _; rfl
  | succ n ih =>
      intro p hpre
      unfold iter_run lower_bound
      rw [List.find?_append]
      have hprefind : pre.find? (fun e => !MappingComparator e.1 ⟨p, p⟩) = none := by
        rw [List.find?_eq_none]
        intro e he
        rw [comparator_empty_key]
        simp [hpre e he]
      rw [hprefind, Option.none_or]
      cases hf : rest.find? (fun e => !MappingComparator e.1 ⟨p, p⟩) with
      | none => rfl
      | some e =>
          simp only []
          congr 1
          apply ih
          intro e' he'
          have hmem : e ∈ rest := List.mem_of_find?_eq_some hf
          obtain ⟨hpw, hne, hag⟩ := hwf
          have hord : e'.1.stop ≤ e.1.start := by
            rw [List.pairwise_append] at hpw
            exact hpw.2.2 e' he' e hmem
          have hne' : e'.1.start < e'.1.stop := hne e' (by simp [he'])
          have hnee : e.1.start < e.1.stop := hne e (by simp [hmem])
          have hag' := hag e (by simp [hmem])
          omega

/-- Starting at or before every entry, the iterator yields the whole map
in order. -/
theorem iter_run_all (m : List (MemoryRange × KernelMapping)) :
    ∀ (fuel p : Nat), m.length ≤ fuel → mm_wf m → (∀ e ∈ m, p ≤ e.1.start) →
      iter_run fuel m p = m := by
  induction m with
  | nil => intro fuel p _ _ _; cases fuel <;> rfl
  | cons e rest ih =>
      intro fuel p hfuel hwf hge
      obtain ⟨hpw, hne, hag⟩ := hwf
      cases fuel with
      | zero => simp at hfuel
      | succ n =>
          obtain ⟨hag1, hag2⟩ := hag e (by simp)
          have hneE := hne e (by simp)
          have hstop : ∀ e' ∈ [e], e'.1.start < e.2.stop := by
            intro e' he'
            simp only [List.mem_singleton] at he'
            subst he'
            omega
          have hskip := iter_run_skip [e] rest ⟨hpw, hne, hag⟩ n e.2.stop hstop
          rw [List.singleton_append] at hskip
          have hrest : iter_run n rest e.2.stop = rest := by
            apply ih n e.2.stop (by simpa using hfuel)
            · exact ⟨hpw.of_cons, fun e' he' => hne e' (by simp [he']),
                fun e' he' => hag e' (by simp [he'])⟩
            · intro e' he'
              have := List.rel_of_pairwise_cons hpw he'
              omega
          unfold iter_run lower_bound
          rw [List.find?_cons]
          have hpe : (!MappingComparator e.1 ⟨p, p⟩) = true := by
            rw [comparator_empty_key]
            simp [Nat.not_lt.mpr (hge e (by simp))]
          rw [hpe]
          simp only []
          rw [hskip, hrest]

/-- After yielding an entry of the original map, continuing on a mutated
map with the same keys (e.g. after a protection change) yields exactly the
remaining entries of the mutated map. -/
theorem iter_resume_after_mutation
    (m1 m2 : List (MemoryRange × KernelMapping))
    (e1 e2 : MemoryRange × KernelMapping)
    (rest1 rest2 : List (MemoryRange × KernelMapping))
    (hwf1 : mm_wf (m1 ++ e1 :: rest1)) (hwf2 : mm_wf (m2 ++ e2 :: rest2))
    (hlen : m1.length = m2.length)
    (hkeys : (m1 ++ e1 :: rest1).map Prod.fst =
      (m2 ++ e2 :: rest2).map Prod.fst) :
    iter_run (m2 ++ e2 :: rest2).length (m2 ++ e2 :: rest2) e1.2.stop =
      rest2 := by
  obtain ⟨hpw1, hne1, hag1⟩ := hwf1
  obtain ⟨hpw2, hne2, hag2⟩ := hwf2
  have hkey : e1.1 = e2.1 := by
    rw [List.map_append, List.map_append] at hkeys
    have := List.append_inj hkeys (by simp [hlen])
    have htl := this.2
    simp only [List.map_cons, List.cons.injEq] at htl
    exact htl.1
  have hag1e := hag1 e1 (by simp)
  have hag2e := hag2 e2 (by simp)
  have hne2e := hne2 e2 (by simp)
  have hp : e1.2.stop = e2.1.stop := by
    rw [← hag1e.2, hkey]
  have hskip := iter_run_skip (m2 ++ [e2]) rest2
    (by rw [List.append_assoc, List.singleton_append]; exact ⟨hpw2, hne2, hag2⟩)
    (m2 ++ e2 :: rest2).length e1.2.stop
  rw [List.append_assoc, List.singleton_append] at hskip
  rw [hskip]
  · apply iter_run_all
    · simp
      omega
    · rw [List.pairwise_append] at hpw2
      have hcons := hpw2.2.1
      exact ⟨hcons.of_cons,
        fun e he => hne2 e (by simp [he]),
        fun e he => hag2 e (by simp [he])⟩
    · intro e he
      have : e2.1.stop ≤ e.1.start := by
        rw [List.pairwise_append] at hpw2
        exact List.rel_of_pairwise_cons hpw2.2.1 he
      omega
  · intro e he
    rw [List.mem_append, List.mem_singleton] at he
    rcases he with he | he
    · have h1 : e.1.stop ≤ e2.1.start := by
        rw [List.pairwise_append] at hpw2
        exact hpw2.2.2 e he e2 (by simp)
      have h2 : e.1.start < e.1.stop := hne2 e (by simp [he])
      omega
    · subst he
      omega

/-- C8: `maps()` iteration (starting from address 0) yields every mapping
of a well-formed memory map exactly once in increasing address order, and
the iterator tolerates mutations that change no keys: having just yielded
an entry of the original map, the lower-bound re-lookup on the mutated map
(same ranges, possibly different mapping values, e.g. changed protection)
continues with exactly the remaining entries of the mutated map. -/
theorem c8_maps_iteration :
    (∀ m, mm_wf m → iter_run m.length m 0 = m ∧
        m.Pairwise (fun a b => a.1.start < b.1.start)) ∧
    (∀ (m1 m2 : List (MemoryRange × KernelMapping)) e1 e2 rest1 rest2,
        mm_wf (m1 ++ e1 :: rest1) → mm_wf (m2 ++ e2 :: rest2) →
        m1.length = m2.length →
        (m1 ++ e1 :: rest1).map Prod.fst = (m2 ++ e2 :: rest2).map Prod.fst →
        iter_run (m2 ++ e2 :: rest2).length (m2 ++ e2 :: rest2) e1.2.stop =
          rest2) := by
  constructor
  · intro m hwf
    refine ⟨iter_run_all m m.length 0 le_rfl hwf (fun e _ => Nat.zero_le _), ?_⟩
    obtain ⟨hpw, hne, -⟩ := hwf
    exact hpw.imp_of_mem (fun ha hb hr => by
      have := hne _ ha
      omega)
  · intro m1 m2 e1 e2 rest1 rest2 hwf1 hwf2 hlen hkeys
    exact iter_resume_after_mutation m1 m2 e1 e2 rest1 rest2 hwf1 hwf2 hlen hkeys

/-- A read-only private page at address 0, its read-write mutation, and a
separate page: concrete data for the `c8_maps_iteration` witness. -/
def wEntryA : MemoryRange × KernelMapping := (⟨0, 4096⟩, ⟨0, 4096, 1, 2⟩)

/-- `wEntryA` after an `mprotect` to read-write: same range, new value. -/
def wEntryA2 : MemoryRange × KernelMapping := (⟨0, 4096⟩, ⟨0, 4096, 3, 2⟩)

/-- A second mapping above `wEntryA`. -/
def wEntryB : MemoryRange × KernelMapping := (⟨8192, 12288⟩, ⟨8192, 12288, 1, 2⟩)

/-- Witness for `c8_maps_iteration`: after yielding the first mapping and
changing its protection, the iterator still yields exactly the remaining
mapping. -/
theorem c8_maps_iteration_witness :
    iter_run 2 [wEntryA2, wEntryB] wEntryA.2.stop = [wEntryB] :=
  c8_maps_iteration.2 [] [] wEntryA wEntryA2 [wEntryB] [wEntryB]
    (by unfold mm_wf wEntryA wEntryB; refine ⟨?_, ?_, ?_⟩ <;> decide)
    (by unfold mm_wf wEntryA2 wEntryB; refine ⟨?_, ?_, ?_⟩ <;> decide)
    rfl (by decide)

end RR

namespace RR

/-! ## Trace frame round trip (src/TraceStream.cc) -/

/-- `EncodedEvent` (src/Event.h lines 86-102): 5-bit event type, syscall
entry/exit, exec-info and arch bits, 24-bit payload. -/
structure EncodedEvent where
  etype : Nat
  is_syscall_entry : Bool
  has_exec_info : Bool
  arch : Bool
  data : Nat
  deriving Repr, DecidableEq

/-- `EV_SIGNAL`'s position in the `EventType` enum (src/Event.h). -/
def EV_SIGNAL : Nat := 16

/-- `EV_SIGNAL_DELIVERY`'s position in the `EventType` enum. -/
def EV_SIGNAL_DELIVERY : Nat := 17

/-- `EV_SIGNAL_HANDLER`'s position in the `EventType` enum. -/
def EV_SIGNAL_HANDLER : Nat := 18

/-- `Event::is_signal_event()`.  Modelled from the spec: Event.cc is not
under src/; per src/Event.h the signal events are the three `EV_SIGNAL*`
types ("Use .signal"). -/
def is_signal_event (ev : EncodedEvent) : Bool :=
  ev.etype == EV_SIGNAL || ev.etype == EV_SIGNAL_DELIVERY ||
    ev.etype == EV_SIGNAL_HANDLER

/-- The exec-info block of a trace frame: the `Registers` blob, the extra
perf values, and the extra-register block (format tag plus raw bytes).
Blobs that `CompressedWriter` copies byte-for-byte are opaque words here.
Modelled from the spec: TraceFrame.h is not under src/; the spec gives the
frame as `(event_time, tid, event, ticks, monotonic_time_seconds,
optional[registers, extra_registers, extra_perf_values],
optional[signal_payload])`. -/
structure ExecInfo where
  recorded_regs : Nat
  extra_perf : Nat
  extra_regs_format : Nat
  extra_regs_data : List Nat
  deriving Repr, DecidableEq

/-- A trace frame (spec section 3); the optional blocks are present
according to the event's exec-info bit and signal-ness, which
`TraceFrame.wf` below states. -/
structure TraceFrameM where
  time : Nat
  tid : Int
  ev : EncodedEvent
  ticks : Nat
  monotonic_sec : Nat
  exec_info : Option ExecInfo
  signal_data : Option Nat
  deriving Repr, DecidableEq

/-- `ExtraRegisters::Format::NONE` (src/ExtraRegisters.h line 49). -/
def EXTRA_REGS_FORMAT_NONE : Nat := 0

/-- Well-formedness of a frame handed to `TraceWriter::write_frame`: the
exec-info block is present exactly when the event has exec info, the
signal payload exactly when the event is a signal event, and an empty
extra-register block carries format `NONE` (an `ExtraRegisters` with no
data has format `NONE`, src/ExtraRegisters.h lines 26-27). -/
def TraceFrameM.wf (f : TraceFrameM) : Prop :=
  (f.exec_info.isSome ↔ f.ev.has_exec_info = true) ∧
  (f.signal_data.isSome ↔ is_signal_event f.ev = true) ∧
  (∀ ei, f.exec_info = some ei → ei.extra_regs_data = [] →
    ei.extra_regs_format = EXTRA_REGS_FORMAT_NONE)

/-- One serialized item of the `events` substream, in write order. -/
inductive TraceTok where
  | basic (time : Nat) (tid : Int) (ev : EncodedEvent) (ticks : Nat) (mono : Nat)
  | regs (r : Nat)
  | perf (p : Nat)
  | exfmt (format : Nat) (nbytes : Nat)
  | exdata (bytes : List Nat)
  | sig (d : Nat)
  deriving Repr, DecidableEq

/-- `TraceWriter::write_frame` (src/TraceStream.cc lines 175-215): the
`BasicInfo` struct, then — when the event has exec info — the registers,
the extra perf values, the extra-register format and byte count, and the
bytes themselves when the count is positive, then the signal payload for
signal events. -/
def write_frame (f : TraceFrameM) : List TraceTok :=
  [TraceTok.basic f.time f.tid f.ev f.ticks f.monotonic_sec] ++
  (if f.ev.has_exec_info then
    let ei := f.exec_info.getD ⟨0, 0, 0, []⟩
    [TraceTok.regs ei.recorded_regs, TraceTok.perf ei.extra_perf,
     TraceTok.exfmt ei.extra_regs_format ei.extra_regs_data.length] ++
    (if 0 < ei.extra_regs_data.length then [TraceTok.exdata ei.extra_regs_data]
     else [])
  else []) ++
  (if is_signal_event f.ev then [TraceTok.sig (f.signal_data.getD 0)] else [])

/-- `TraceReader::read_frame` (src/TraceStream.cc lines 217-253): read the
`BasicInfo`, then the exec-info blocks when the decoded event has exec
info (asserting format `NONE` when the extra-register count is zero), then
the signal payload for signal events; finally tick the reader's global
time and assert it matches the frame's recorded time.  Assertion failures
and reads past the available data are `none`. -/
def read_frame (toks : List TraceTok) (time : Nat) :
    Option (TraceFrameM × List TraceTok × Nat) :=
  match toks with
  | TraceTok.basic t tid ev ticks mono :: rest =>
      let step2 : Option (Option ExecInfo × List TraceTok) :=
        if ev.has_exec_info then
          match rest with
          | TraceTok.regs r :: TraceTok.perf p :: TraceTok.exfmt fmt n :: rest2 =>
              if 0 < n then
                match rest2 with
                | TraceTok.exdata bytes :: rest3 =>
                    if bytes.length = n then some (some ⟨r, p, fmt, bytes⟩, rest3)
                    else none
                | _ => none
              else
                if fmt = EXTRA_REGS_FORMAT_NONE then
                  some (some ⟨r, p, EXTRA_REGS_FORMAT_NONE, []⟩, rest2)
                else none
          | _ => none
        else some (none, rest)
      match step2 with
      | some (ei, rest2) =>
          let step3 : Option (Option Nat × List TraceTok) :=
            if is_signal_event ev then
              match rest2 with
              | TraceTok.sig d :: rest3 => some (some d, rest3)
              | _ => none
            else some (none, rest2)
          match step3 with
          | some (sd, rest3) =>
              if time + 1 = t then
                some (⟨t, tid, ev, ticks, mono, ei, sd⟩, rest3, time + 1)
              else none
          | none => none
      | none => none
  | _ => none

/-- Repeated `read_frame`, threading the remaining stream and the global
time. -/
def read_frames (toks : List TraceTok) (time : Nat) :
    Nat → Option (List TraceFrameM × List TraceTok × Nat)
  | 0 => some ([], toks, time)
  | n + 1 =>
      match read_frame toks time with
      | some (f, rest, t2) =>
          match read_frames rest t2 n with
          | some (fs, rest2, t3) => some (f :: fs, rest2, t3)
          | none => none
      | none => none

/-- A `TraceReader`'s events substream: the full token list, the unread
remainder, and the global time. -/
structure TraceReaderM where
  toks : List TraceTok
  pos : List TraceTok
  time : Nat
  deriving Repr, DecidableEq

/-- `TraceReader::rewind` (src/TraceStream.cc lines 579-585): reset every
substream to the beginning and the global time to 0. -/
def TraceReaderM.rewind (r : TraceReaderM) : TraceReaderM := ⟨r.toks, r.toks, 0⟩

/-- Reading `n` frames through a reader. -/
def TraceReaderM.readFrames (r : TraceReaderM) (n : Nat) :
    Option (List TraceFrameM × TraceReaderM) :=
  match read_frames r.pos r.time n with
  | some (fs, rest, t) => some (fs, ⟨r.toks, rest, t⟩)
  | none => none

/-- The frames carry consecutive event times starting at `n` (the writer's
global time starts at 1 and is ticked once per written frame). -/
def times_from : Nat → List TraceFrameM → Prop
  | _, [] => True
  | n, f :: rest => f.time = n ∧ times_from (n + 1) rest

end RR

namespace RR

/-- Round trip of a single frame: reading back what `write_frame` wrote
yields the identical frame, consumes exactly the written tokens, and ticks
the reader's time to the frame's time. -/
theorem read_write_frame (f : TraceFrameM) (rest : List TraceTok) (time : Nat)
    (hwf : f.wf) (ht : f.time = time + 1) :
    read_frame (write_frame f ++ rest) time = some (f, rest, time + 1) := by
  obtain ⟨hex, hsig, hfmt⟩ := hwf
  obtain ⟨ft, ftid, fev, fticks, fmono, fei, fsd⟩ := f
  simp only [] at hex hsig hfmt ht
  by_cases h1 : fev.has_exec_info = true
  · obtain ⟨ei, hei⟩ := Option.isSome_iff_exists.mp (hex.mpr h1)
    subst hei
    obtain ⟨eir, eip, eif, eid⟩ := ei
    by_cases h2 : is_signal_event fev = true
    · obtain ⟨d, hd⟩ := Option.isSome_iff_exists.mp (hsig.mpr h2)
      subst hd
      cases hdata : eid with
      | nil =>
          have hfmt0 := hfmt ⟨eir, eip, eif, eid⟩ rfl (by rw [hdata])
          subst hdata
          simp only [] at hfmt0
          subst hfmt0
          simp [write_frame, read_frame, h1, h2, ht]
      | cons b bs =>
          subst hdata
          simp [write_frame, read_frame, h1, h2, ht]
    · have hd : fsd = none := by
        cases hv : fsd with
        | none => rfl
        | some d => rw [hv] at hsig; simp at hsig; exact absurd hsig h2
      subst hd
      cases hdata : eid with
      | nil =>
          have hfmt0 := hfmt ⟨eir, eip, eif, eid⟩ rfl (by rw [hdata])
          subst hdata
          simp only [] at hfmt0
          subst hfmt0
          simp [write_frame, read_frame, h1, h2, ht]
      | cons b bs =>
          subst hdata
          simp [write_frame, read_frame, h1, h2, ht]
  · have hein : fei = none := by
      cases hv : fei with
      | none => rfl
      | some ei => rw [hv] at hex; simp at hex; exact absurd hex h1
    subst hein
    by_cases h2 : is_signal_event fev = true
    · obtain ⟨d, hd⟩ := Option.isSome_iff_exists.mp (hsig.mpr h2)
      subst hd
      simp [write_frame, read_frame, h1, h2, ht]
    · have hd : fsd = none := by
        cases hv : fsd with
        | none => rfl
        | some d => rw [hv] at hsig; simp at hsig; exact absurd hsig h2
      subst hd
      simp [write_frame, read_frame, h1, h2, ht]

end RR

namespace RR

/-- Round trip of a frame sequence with consecutive event times. -/
theorem read_write_frames (fs : List TraceFrameM) :
    ∀ (rest : List TraceTok) (time : Nat), (∀ f ∈ fs, f.wf) →
      times_from (time + 1) fs →
      read_frames ((fs.map write_frame).flatten ++ rest) time fs.length =
        some (fs, rest, time + fs.length) := by
  induction fs with
  | nil => intro rest time _ _; simp [read_frames]
  | cons f fs ih =>
      intro rest time hwf ht
      obtain ⟨ht1, ht2⟩ := ht
      have hstep := read_write_frame f ((fs.map write_frame).flatten ++ rest) time
        (hwf f (by simp)) ht1
      have hrest := ih rest (time + 1) (fun g hg => hwf g (by simp [hg])) ht2
      simp only [List.map_cons, List.flatten_cons, List.append_assoc,
        List.length_cons]
      unfold read_frames
      rw [hstep]
      simp only []
      rw [hrest]
      simp only []
      have harith : time + 1 + fs.length = time + (fs.length + 1) := by omega
      rw [harith]

/-- C5: for every sequence of well-formed trace frames written through
`TraceWriter::write_frame` (whose event times are the writer's consecutive
global times starting at 1), a fresh `TraceReader` on the resulting events
substream returns the identical frame sequence — same event time, tid,
encoded event, ticks, monotonic time, registers, extra registers and
signal payload — and after `rewind()` the same sequence is returned
again. -/
theorem c5_trace_round_trip (fs : List TraceFrameM)
    (hwf : ∀ f ∈ fs, f.wf) (ht : times_from 1 fs) :
    (TraceReaderM.readFrames
        ⟨(fs.map write_frame).flatten, (fs.map write_frame).flatten, 0⟩ fs.length =
      some (fs, ⟨(fs.map write_frame).flatten, [], fs.length⟩)) ∧
    (TraceReaderM.readFrames
        (TraceReaderM.rewind ⟨(fs.map write_frame).flatten, [], fs.length⟩)
        fs.length =
      some (fs, ⟨(fs.map write_frame).flatten, [], fs.length⟩)) := by
  have h := read_write_frames fs [] 0 hwf (by simpa using ht)
  rw [List.append_nil] at h
  constructor
  · simp [TraceReaderM.readFrames, h]
  · simp [TraceReaderM.rewind, TraceReaderM.readFrames, h]

/-- A frame without exec info or signal payload (concrete witness data). -/
def wFrame1 : TraceFrameM := ⟨1, 100, ⟨4, false, false, false, 0⟩, 10, 0, none, none⟩

/-- A signal frame with exec info, an XSAVE extra-register block and a
signal payload (concrete witness data). -/
def wFrame2 : TraceFrameM :=
  ⟨2, 100, ⟨16, false, true, false, 3⟩, 25, 7, some ⟨11, 22, 1, [1, 2]⟩, some 99⟩

/-- Witness for `c5_trace_round_trip` on a concrete two-frame trace. -/
theorem c5_trace_round_trip_witness :
    (TraceReaderM.readFrames
        ⟨([wFrame1, wFrame2].map write_frame).flatten,
         ([wFrame1, wFrame2].map write_frame).flatten, 0⟩ 2 =
      some ([wFrame1, wFrame2],
        ⟨([wFrame1, wFrame2].map write_frame).flatten, [], 2⟩)) ∧
    (TraceReaderM.readFrames
        (TraceReaderM.rewind ⟨([wFrame1, wFrame2].map write_frame).flatten, [], 2⟩) 2 =
      some ([wFrame1, wFrame2],
        ⟨([wFrame1, wFrame2].map write_frame).flatten, [], 2⟩)) :=
  c5_trace_round_trip [wFrame1, wFrame2]
    (by
      intro f hf
      simp only [List.mem_cons, List.not_mem_nil, or_false] at hf
      rcases hf with rfl | rfl
      · exact ⟨by simp [wFrame1], by simp [wFrame1, is_signal_event, EV_SIGNAL,
          EV_SIGNAL_DELIVERY, EV_SIGNAL_HANDLER], by intro ei h; simp [wFrame1] at h⟩
      · exact ⟨by simp [wFrame2], by simp [wFrame2, is_signal_event, EV_SIGNAL,
          EV_SIGNAL_DELIVERY, EV_SIGNAL_HANDLER], by
            intro ei h
            simp [wFrame2] at h
            subst h
            simp⟩)
    (by exact ⟨rfl, rfl, trivial⟩)

end RR
